import Mathlib

/-!
Shallow embedding of `src/tasks/CodeDeployDeployApplication/TaskOperations.ts`,
the CodeDeploy deployment task of the AWS toolkit for Azure DevOps.

External calls (the CodeDeploy client, the S3 client, the filesystem and the
task library) are modelled by an environment `Env` fixing the outcome of each
call, and every operation returns the list of observable external effects
(`Event`s) it performed together with its result (`Except TaskError _`),
mirroring the `async` methods of the `TaskOperations` class.  The Node `path`
library helpers used by the task (`basename`, `extname`, `join`) are modelled
for posix-style paths.
-/

deriving instance DecidableEq for Except

namespace CodeDeployDeployApplication

/-- JavaScript truthiness of a string: `if (s)` is taken iff `s` is nonempty. -/
def truthy (s : String) : Bool := s ≠ ""

/-- Modelled from the spec: the revision-source tag for a workspace (local
path) revision, a constant of `TaskParameters.ts`, which is not among the
source files; the spec calls the two sources Workspace and ObjectStore, and
only their distinctness matters here. -/
def revisionSourceFromWorkspace : String := "workspace"

/-- Modelled from the spec: the revision-source tag for a pre-uploaded
object-store revision (a constant of `TaskParameters.ts`, which is not among
the source files). -/
def revisionSourceFromS3 : String := "s3"

/-- Task inputs (`TaskParameters`), constructed once per invocation.
Optional string inputs are modelled as strings, absent being `""`
(JavaScript falsy), matching the truthiness tests of the source. -/
structure TaskParameters where
  applicationName : String
  deploymentGroupName : String
  deploymentRevisionSource : String
  revisionBundle : String
  bucketName : String
  bundleKey : String
  bundlePrefix : String
  filesAcl : String
  fileExistsBehavior : String
  ignoreApplicationStopFailures : Bool
  updateOutdatedInstancesOnly : Bool
  description : String
  outputVariable : String
  timeoutInMins : ℚ
deriving DecidableEq

/-- Outcome of every external call one invocation can make:
`getApplication` / `getDeploymentGroup` / `headObject` probes,
`tl.stats(...).isDirectory()`, archive creation, the S3 upload, the
`createDeployment` call (`none` = request rejected; `some r` = accepted with
`r` the possibly-absent `deploymentId` field), and the completion waiter. -/
structure Env where
  getApplicationOk : Bool
  getDeploymentGroupOk : Bool
  headObjectOk : Bool
  isDirectory : Bool
  zipOk : Bool
  uploadOk : Bool
  createDeploymentResult : Option (Option String)
  waitOk : Bool
  tempDir : String
  nowMillis : Nat
deriving DecidableEq

/-- Observable external effects of one invocation, in order. -/
inductive Event where
  | getApplication (applicationName : String)
  | getDeploymentGroup (applicationName deploymentGroupName : String)
  | headObject (bucket key : String)
  | writeZip (folder archive : String)
  | putObject (bucket key : String) (acl : Option String)
  | unlinkSync (path : String)
  | createDeployment (applicationName deploymentGroupName fileExistsBehavior : String)
      (ignoreApplicationStopFailures updateOutdatedInstancesOnly : Bool)
      (bucket key bundleType : String) (description : Option String)
  | setVariable (name value : String)
  | waitFor (deploymentId : String) (maxAttempts : ℤ)
deriving DecidableEq

/-- The errors the task can raise (`throw new Error(tl.loc(...))` sites, and
the rethrown SDK errors of the upload / submission catch blocks). -/
inductive TaskError where
  | applicationDoesNotExist (applicationName : String)
  | deploymentGroupDoesNotExist (deploymentGroupName applicationName : String)
  | revisionBundleDoesNotExist (bundleKey bucketName : String)
  | unknownRevisionSource (source : String)
  | zipError
  | uploadError
  | deploymentError
  | deploymentFailed (applicationName : String)
deriving DecidableEq

/-- Node `path.posix.basename` helper: the last nonempty `/`-separated
component (trailing separators ignored). -/
def basenameChars (cs : List Char) : List Char :=
  ((cs.splitOn '/').filter (fun part => !part.isEmpty)).getLastD []

/-- Node `path.basename` modelled for posix paths. -/
def pathBasename (p : String) : String := ⟨basenameChars p.data⟩

/-- Node `path.extname` on the basename characters: the suffix from the last
dot on, empty when there is no dot or the only dot starts the basename (a
hidden file has no extension).  The `".."` path component is not treated
specially. -/
def extnameChars (cs : List Char) : List Char :=
  let base := basenameChars cs
  let extRev := base.reverse.takeWhile (fun c => c != '.')
  if base.reverse.contains '.' then
    if base.length - extRev.length - 1 = 0 then [] else '.' :: extRev.reverse
  else []

/-- Node `path.extname` modelled for posix paths. -/
def pathExtname (p : String) : String := ⟨extnameChars p.data⟩

/-- Node `path.join` restricted to the two-segment use of the source. -/
def pathJoin (a b : String) : String := a ++ "/" ++ b

/-- Archive-type inference of `deployRevision` (lines 179-187): the extension
of the bundle key without its leading dot, lowercased, when `path.extname`
yields more than the bare separator; otherwise the default `"zip"`. -/
def archiveTypeOf (bundleKey : String) : String :=
  let archiveType := pathExtname bundleKey
  if archiveType ≠ "" ∧ 1 < archiveType.length then
    ⟨(archiveType.data.drop 1).map Char.toLower⟩
  else
    "zip"

/-- Object-key computation of `uploadBundle` (lines 114-120): the basename of
the archive, prefixed with `bundlePrefix ++ "/"` when the prefix is truthy. -/
def computeKey (bundlePrefix : String) (archiveName : String) : String :=
  let bundleFilename := pathBasename archiveName
  if truthy bundlePrefix then
    bundlePrefix ++ "/" ++ bundleFilename
  else
    bundleFilename

/-- ACL attached to the upload request (lines 131-133): the configured ACL
when truthy and not the sentinel `"none"`. -/
def aclOf (p : TaskParameters) : Option String :=
  if truthy p.filesAcl ∧ p.filesAcl ≠ "none" then some p.filesAcl else none

/-- Optional free-text description attached to the submission (lines 206-208). -/
def descriptionOf (p : TaskParameters) : Option String :=
  if truthy p.description then some p.description else none

/-- The `createDeployment` request observable, as built on lines 190-208. -/
def createDeploymentEventOf (p : TaskParameters) (bundleKey : String) : Event :=
  Event.createDeployment p.applicationName p.deploymentGroupName p.fileExistsBehavior
    p.ignoreApplicationStopFailures p.updateOutdatedInstancesOnly
    p.bucketName bundleKey (archiveTypeOf bundleKey) (descriptionOf p)

/-- Waiter parameters built by `setWaiterParams` (lines 255-269). -/
structure WaiterParams where
  deploymentId : String
  maxAttempts : ℤ
deriving DecidableEq

/-- The `setWaiterParams` helper: the 15-second cadence of the CodeDeploy
waiter turns the timeout in minutes into `Math.round(timeout * 60 / 15)`
maximum attempts. -/
def setWaiterParams (deploymentId : String) (timeout : ℚ) : WaiterParams :=
  { deploymentId := deploymentId, maxAttempts := round ((timeout * 60) / 15) }

/-- The archive path `createDeploymentArchive` writes (lines 156-158):
`<tempDir>/<applicationName>.v<nowMillis>.zip`. -/
def archivePathOf (env : Env) (applicationName : String) : String :=
  pathJoin env.tempDir (applicationName ++ ".v" ++ toString env.nowMillis ++ ".zip")

/-- The `createDeploymentArchive` method (lines 151-173): zip the bundle
folder into the temp location, failing when the zip library throws. -/
def createDeploymentArchive (env : Env) (bundleFolder applicationName : String) :
    List Event × Except TaskError String :=
  let archive := archivePathOf env applicationName
  if env.zipOk then
    ([Event.writeZip bundleFolder archive], Except.ok archive)
  else
    ([], Except.error TaskError.zipError)

/-- The `uploadBundle` method (lines 101-149): archive a directory source (a
file source is used as-is), compute the object key, upload, and delete the
archive only when it was auto-created and the upload succeeded; an upload
failure is rethrown and deletes nothing. -/
def uploadBundle (env : Env) (p : TaskParameters) : List Event × Except TaskError String :=
  match
    (if env.isDirectory then
      match createDeploymentArchive env p.revisionBundle p.applicationName with
      | (evs, Except.ok archive) => (evs, Except.ok (archive, true))
      | (evs, Except.error e) => (evs, Except.error e)
    else
      ([], Except.ok (p.revisionBundle, false)) :
      List Event × Except TaskError (String × Bool))
  with
  | (evs, Except.error e) => (evs, Except.error e)
  | (evs, Except.ok (archiveName, autoCreatedArchive)) =>
    let key := computeKey p.bundlePrefix archiveName
    let putEv := Event.putObject p.bucketName key (aclOf p)
    if env.uploadOk then
      if autoCreatedArchive then
        (evs ++ [putEv, Event.unlinkSync archiveName], Except.ok key)
      else
        (evs ++ [putEv], Except.ok key)
    else
      (evs ++ [putEv], Except.error TaskError.uploadError)

/-- The `deployRevision` method (lines 175-230): submit the create-deployment
request; a rejected request rethrows, an accepted one yields the returned
identifier, with a falsy (`undefined` or empty) identifier turned into `""`. -/
def deployRevision (env : Env) (p : TaskParameters) (bundleKey : String) :
    List Event × Except TaskError String :=
  let ev := createDeploymentEventOf p bundleKey
  match env.createDeploymentResult with
  | none => ([ev], Except.error TaskError.deploymentError)
  | some response =>
    ([ev],
      Except.ok
        (match response with
          | none => ""
          | some id => if id = "" then "" else id))

/-- The `waitForDeploymentCompletion` method (lines 232-253): one waiter call
with the parameters of `setWaiterParams`; a waiter error becomes the
aggregated deployment-failure error naming the application. -/
def waitForDeploymentCompletion (env : Env) (applicationName deploymentId : String)
    (timeout : ℚ) : List Event × Except TaskError Unit :=
  let params := setWaiterParams deploymentId timeout
  let ev := Event.waitFor params.deploymentId params.maxAttempts
  if env.waitOk then
    ([ev], Except.ok ())
  else
    ([ev], Except.error (TaskError.deploymentFailed applicationName))

/-- The `verifyResourcesExist` method (lines 59-99): probe the application,
then the deployment group, then (only for the pre-uploaded-object source) the
revision object, each failure mapped to its named precondition error. -/
def verifyResourcesExist (env : Env) (p : TaskParameters) :
    List Event × Except TaskError Unit :=
  let e1 := [Event.getApplication p.applicationName]
  if env.getApplicationOk then
    let e2 := e1 ++ [Event.getDeploymentGroup p.applicationName p.deploymentGroupName]
    if env.getDeploymentGroupOk then
      if p.deploymentRevisionSource = revisionSourceFromS3 then
        let e3 := e2 ++ [Event.headObject p.bucketName p.bundleKey]
        if env.headObjectOk then
          (e3, Except.ok ())
        else
          (e3, Except.error (TaskError.revisionBundleDoesNotExist p.bundleKey p.bucketName))
      else
        (e2, Except.ok ())
    else
      (e2, Except.error
        (TaskError.deploymentGroupDoesNotExist p.deploymentGroupName p.applicationName))
  else
    (e1, Except.error (TaskError.applicationDoesNotExist p.applicationName))

/-- The revision-source switch of `execute` (lines 31-41): the workspace
source packages and uploads, the object-store source uses the caller-supplied
key directly, anything else raises the unknown-revision-source error. -/
def resolveBundleKey (env : Env) (p : TaskParameters) :
    List Event × Except TaskError String :=
  if p.deploymentRevisionSource = revisionSourceFromWorkspace then
    uploadBundle env p
  else if p.deploymentRevisionSource = revisionSourceFromS3 then
    ([], Except.ok p.bundleKey)
  else
    ([], Except.error (TaskError.unknownRevisionSource p.deploymentRevisionSource))

/-- The `execute` method (lines 28-57), in the source's order: verify
resources, resolve the bundle key, submit the deployment, set the output
variable when one is configured (lines 45-48), then wait for completion
(lines 50-54). -/
def execute (env : Env) (p : TaskParameters) : List Event × Except TaskError Unit :=
  match verifyResourcesExist env p with
  | (evs1, Except.error e) => (evs1, Except.error e)
  | (evs1, Except.ok _) =>
    match resolveBundleKey env p with
    | (evs2, Except.error e) => (evs1 ++ evs2, Except.error e)
    | (evs2, Except.ok bundleKey) =>
      match deployRevision env p bundleKey with
      | (evs3, Except.error e) => (evs1 ++ evs2 ++ evs3, Except.error e)
      | (evs3, Except.ok deploymentId) =>
        let evs4 :=
          if truthy p.outputVariable then
            [Event.setVariable p.outputVariable deploymentId]
          else
            []
        let w := waitForDeploymentCompletion env p.applicationName deploymentId p.timeoutInMins
        (evs1 ++ evs2 ++ evs3 ++ evs4 ++ w.1, w.2)

/-- A concrete set of task inputs with the pre-uploaded-object source. -/
def pS3 : TaskParameters :=
  { applicationName := "app"
    deploymentGroupName := "grp"
    deploymentRevisionSource := revisionSourceFromS3
    revisionBundle := "/ws/bundle"
    bucketName := "bkt"
    bundleKey := "bundle.tar"
    bundlePrefix := "p"
    filesAcl := "none"
    fileExistsBehavior := "DISALLOW"
    ignoreApplicationStopFailures := false
    updateOutdatedInstancesOnly := false
    description := ""
    outputVariable := "OUT"
    timeoutInMins := 5 }

/-- A concrete set of task inputs with the workspace source. -/
def pWs : TaskParameters :=
  { pS3 with
    deploymentRevisionSource := revisionSourceFromWorkspace
    revisionBundle := "/ws/appdir"
    bundlePrefix := "" }

/-- An environment in which every external call succeeds. -/
def envHappy : Env :=
  { getApplicationOk := true
    getDeploymentGroupOk := true
    headObjectOk := true
    isDirectory := true
    zipOk := true
    uploadOk := true
    createDeploymentResult := some (some "d-123")
    waitOk := true
    tempDir := "/tmp"
    nowMillis := 123 }

/-- The happy environment except that the completion waiter reports failure. -/
def envWaitFail : Env := { envHappy with waitOk := false }

/-- The happy environment except that the application probe fails. -/
def envAppMissing : Env := { envHappy with getApplicationOk := false }

/-- The happy environment except that the S3 upload fails. -/
def envUploadFail : Env := { envHappy with uploadOk := false }

/-- The happy environment except that the accepted submission returns no
deployment identifier. -/
def envNoId : Env := { envHappy with createDeploymentResult := some none }

/-- C5: the bundleType hint `deployRevision` sends with the submission equals
the key's file extension lowercased without the leading separator when an
extension is present, and the default `"zip"` when none is; in particular key
`"bundle.tar"` yields type `"tar"` and key `"bundle"` yields `"zip"`. -/
theorem deployRevision_bundleType_from_extension :
    (∀ env p key, (deployRevision env p key).1 = [createDeploymentEventOf p key]) ∧
    (∀ key ext, pathExtname key = ext → 1 < ext.length →
      archiveTypeOf key = ⟨(ext.data.drop 1).map Char.toLower⟩) ∧
    (∀ key, pathExtname key = "" → archiveTypeOf key = "zip") ∧
    archiveTypeOf "bundle.tar" = "tar" ∧ archiveTypeOf "bundle" = "zip" := by
  refine ⟨?_, ?_, ?_, by decide, by decide⟩
  · intro env p key
    unfold deployRevision
    cases env.createDeploymentResult <;> rfl
  · intro key ext hext hlen
    have hne : ext ≠ "" := by
      intro hemp
      subst hemp
      simp [String.length] at hlen
    simp only [archiveTypeOf]
    rw [hext]
    simp [hne, hlen]
  · intro key h
    simp [archiveTypeOf, h]

/-- Witness for C5 at a concrete key with an uppercase extension. -/
theorem deployRevision_bundleType_from_extension_witness :
    archiveTypeOf "x/a.TAR" = ⟨(".TAR".data.drop 1).map Char.toLower⟩ :=
  deployRevision_bundleType_from_extension.2.1 "x/a.TAR" ".TAR" (by decide) (by decide)

/-- C10: a key ending in a bare trailing dot is typed with the default
`"zip"`, not the empty string: `path.extname` yields just the separator,
which the length guard of `deployRevision` treats as no extension. -/
theorem archiveType_trailing_dot_zip :
    (∀ key, pathExtname key = "." → archiveTypeOf key = "zip") ∧
    pathExtname "bundle." = "." ∧ archiveTypeOf "bundle." = "zip" ∧
    archiveTypeOf "bundle." ≠ "" := by
  refine ⟨?_, by decide, by decide, by decide⟩
  intro key h
  simp [archiveTypeOf, h]
  decide

/-- Witness for C10 at another concrete key with a trailing dot. -/
theorem archiveType_trailing_dot_zip_witness : archiveTypeOf "x." = "zip" :=
  archiveType_trailing_dot_zip.1 "x." (by decide)

/-- C6: the destination object key of a workspace upload is the archive
basename, prefixed with `bundlePrefix` and a separator exactly when a prefix
is configured; in particular prefix `"p"` with basename `"app.v123.zip"`
yields `"p/app.v123.zip"`, and with no prefix the basename is unchanged. -/
theorem uploadBundle_key_computation :
    (∀ pfx arch, pfx ≠ "" → computeKey pfx arch = pfx ++ "/" ++ pathBasename arch) ∧
    (∀ arch, computeKey "" arch = pathBasename arch) ∧
    computeKey "p" "/tmp/app.v123.zip" = "p/app.v123.zip" ∧
    computeKey "" "/tmp/app.v123.zip" = "app.v123.zip" ∧
    (∀ env p, env.isDirectory = false → env.uploadOk = true →
      uploadBundle env p =
        ([Event.putObject p.bucketName (computeKey p.bundlePrefix p.revisionBundle) (aclOf p)],
          Except.ok (computeKey p.bundlePrefix p.revisionBundle))) := by
  refine ⟨?_, ?_, by decide, by decide, ?_⟩
  · intro pfx arch h
    simp [computeKey, truthy, h]
  · intro arch
    simp [computeKey, truthy]
  · intro env p hdir hup
    simp [uploadBundle, hdir, hup]

/-- Witness for C6 at a concrete prefix and archive path. -/
theorem uploadBundle_key_computation_witness :
    computeKey "q" "a/b.zip" = "q" ++ "/" ++ pathBasename "a/b.zip" :=
  uploadBundle_key_computation.1 "q" "a/b.zip" (by decide)

/-- C9: the empty bundle prefix behaves exactly like no prefix: the key is
the archive basename and never gains a leading separator. -/
theorem computeKey_blank_is_basename :
    ∀ arch, computeKey "" arch = pathBasename arch ∧
      computeKey "" arch ≠ "/" ++ pathBasename arch := by
  intro arch
  have hkey : computeKey "" arch = pathBasename arch := by
    simp [computeKey, truthy]
  refine ⟨hkey, ?_⟩
  rw [hkey]
  intro h
  have h2 := congrArg String.length h
  rw [String.length_append] at h2
  have h3 : ("/" : String).length = 1 := rfl
  omega

/-- Helper: `uploadBundle` can only raise the zip error or the rethrown
upload error. -/
theorem uploadBundle_error_shape {env : Env} {p : TaskParameters} {evs : List Event}
    {e : TaskError} (h : uploadBundle env p = (evs, Except.error e)) :
    e = TaskError.zipError ∨ e = TaskError.uploadError := by
  cases hd : env.isDirectory <;> cases hz : env.zipOk <;> cases hu : env.uploadOk <;>
    simp_all [uploadBundle, createDeploymentArchive]

/-- Helper: the events of `uploadBundle` are archive writes, uploads and
deletions only. -/
theorem mem_uploadBundle {env : Env} {p : TaskParameters} {e : Event}
    (h : e ∈ (uploadBundle env p).1) :
    (∃ f a, e = Event.writeZip f a) ∨ (∃ b k acl, e = Event.putObject b k acl) ∨
      (∃ a, e = Event.unlinkSync a) := by
  cases hd : env.isDirectory <;> cases hz : env.zipOk <;> cases hu : env.uploadOk <;>
    simp_all [uploadBundle, createDeploymentArchive] <;> aesop

/-- Helper: the events of `verifyResourcesExist` are the three existence
probes only. -/
theorem mem_verifyResourcesExist {env : Env} {p : TaskParameters} {e : Event}
    (h : e ∈ (verifyResourcesExist env p).1) :
    (∃ a, e = Event.getApplication a) ∨ (∃ a g, e = Event.getDeploymentGroup a g) ∨
      (∃ b k, e = Event.headObject b k) := by
  cases h1 : env.getApplicationOk <;> cases h2 : env.getDeploymentGroupOk <;>
    cases h3 : env.headObjectOk <;>
    by_cases hs : p.deploymentRevisionSource = revisionSourceFromS3 <;>
    simp_all [verifyResourcesExist] <;> aesop

/-- Helper: `verifyResourcesExist` raises precondition errors only. -/
theorem verifyResourcesExist_error_shape {env : Env} {p : TaskParameters}
    {evs : List Event} {e : TaskError}
    (h : verifyResourcesExist env p = (evs, Except.error e)) :
    (∃ a, e = TaskError.applicationDoesNotExist a) ∨
      (∃ g a, e = TaskError.deploymentGroupDoesNotExist g a) ∨
      (∃ k b, e = TaskError.revisionBundleDoesNotExist k b) := by
  cases h1 : env.getApplicationOk <;> cases h2 : env.getDeploymentGroupOk <;>
    cases h3 : env.headObjectOk <;>
    by_cases hs : p.deploymentRevisionSource = revisionSourceFromS3 <;>
    simp_all [verifyResourcesExist] <;> aesop

/-- Helper: the revision-source switch raises archive, upload or
unknown-source errors only. -/
theorem resolveBundleKey_error_shape {env : Env} {p : TaskParameters}
    {evs : List Event} {e : TaskError}
    (h : resolveBundleKey env p = (evs, Except.error e)) :
    e = TaskError.zipError ∨ e = TaskError.uploadError ∨
      (∃ s, e = TaskError.unknownRevisionSource s) := by
  by_cases hw : p.deploymentRevisionSource = revisionSourceFromWorkspace <;>
    by_cases hs : p.deploymentRevisionSource = revisionSourceFromS3 <;>
    simp_all [resolveBundleKey]
  · rcases uploadBundle_error_shape h with h' | h' <;> tauto
  · rcases uploadBundle_error_shape h with h' | h' <;> tauto
  · tauto

/-- Helper: the events of the revision-source switch come from
`uploadBundle`. -/
theorem mem_resolveBundleKey {env : Env} {p : TaskParameters} {e : Event}
    (h : e ∈ (resolveBundleKey env p).1) :
    (∃ f a, e = Event.writeZip f a) ∨ (∃ b k acl, e = Event.putObject b k acl) ∨
      (∃ a, e = Event.unlinkSync a) := by
  by_cases hw : p.deploymentRevisionSource = revisionSourceFromWorkspace <;>
    by_cases hs : p.deploymentRevisionSource = revisionSourceFromS3 <;>
    simp_all [resolveBundleKey]
  · exact mem_uploadBundle h
  · exact mem_uploadBundle h

/-- Helper: `deployRevision` performs exactly one submission call. -/
theorem deployRevision_events (env : Env) (p : TaskParameters) (key : String) :
    (deployRevision env p key).1 = [createDeploymentEventOf p key] := by
  unfold deployRevision
  cases env.createDeploymentResult <;> rfl

/-- Helper: a `deployRevision` failure is the rethrown submission error. -/
theorem deployRevision_error_shape {env : Env} {p : TaskParameters} {key : String}
    {evs : List Event} {e : TaskError}
    (h : deployRevision env p key = (evs, Except.error e)) :
    e = TaskError.deploymentError := by
  cases hc : env.createDeploymentResult <;> simp_all [deployRevision]

/-- Helper: the completion waiter performs exactly one wait call, with the
parameters of `setWaiterParams`. -/
theorem waitForDeploymentCompletion_events (env : Env) (a d : String) (t : ℚ) :
    (waitForDeploymentCompletion env a d t).1 =
      [Event.waitFor d (setWaiterParams d t).maxAttempts] := by
  simp only [waitForDeploymentCompletion]
  split <;> rfl

/-- C2: an auto-created archive (directory source) is deleted right after a
successful upload; a failed upload deletes nothing and propagates the upload
error; a caller-supplied file (file source) is never deleted. -/
theorem uploadBundle_cleanup_policy :
    ∀ env p,
      (env.isDirectory = true → env.zipOk = true → env.uploadOk = true →
        uploadBundle env p =
          ([Event.writeZip p.revisionBundle (archivePathOf env p.applicationName),
            Event.putObject p.bucketName
              (computeKey p.bundlePrefix (archivePathOf env p.applicationName)) (aclOf p),
            Event.unlinkSync (archivePathOf env p.applicationName)],
            Except.ok (computeKey p.bundlePrefix (archivePathOf env p.applicationName)))) ∧
      (env.uploadOk = false → (env.isDirectory = false ∨ env.zipOk = true) →
        (uploadBundle env p).2 = Except.error TaskError.uploadError ∧
        ∀ a, Event.unlinkSync a ∉ (uploadBundle env p).1) ∧
      (env.isDirectory = false → ∀ a, Event.unlinkSync a ∉ (uploadBundle env p).1) := by
  intro env p
  refine ⟨?_, ?_, ?_⟩
  · intro h1 h2 h3
    simp [uploadBundle, createDeploymentArchive, h1, h2, h3]
  · intro h1 h2
    cases hd : env.isDirectory <;> cases hz : env.zipOk <;>
      simp_all [uploadBundle, createDeploymentArchive]
  · intro h1
    cases hu : env.uploadOk <;> simp_all [uploadBundle]

/-- Witness for C2: the happy directory-source run writes, uploads, then
deletes the auto-created archive. -/
theorem uploadBundle_cleanup_policy_witness :
    uploadBundle envHappy pWs =
      ([Event.writeZip pWs.revisionBundle (archivePathOf envHappy pWs.applicationName),
        Event.putObject pWs.bucketName
          (computeKey pWs.bundlePrefix (archivePathOf envHappy pWs.applicationName)) (aclOf pWs),
        Event.unlinkSync (archivePathOf envHappy pWs.applicationName)],
        Except.ok (computeKey pWs.bundlePrefix (archivePathOf envHappy pWs.applicationName))) :=
  (uploadBundle_cleanup_policy envHappy pWs).1 rfl rfl rfl

/-- C3: a failing application probe aborts the run immediately with the
application-not-found error naming the application; no upload and no
submission call is made (the whole trace is the single probe). -/
theorem execute_application_missing_aborts :
    ∀ env p, env.getApplicationOk = false →
      execute env p =
        ([Event.getApplication p.applicationName],
          Except.error (TaskError.applicationDoesNotExist p.applicationName)) := by
  intro env p h
  simp [execute, verifyResourcesExist, h]

/-- Witness for C3 at a concrete environment with a missing application. -/
theorem execute_application_missing_aborts_witness :
    execute envAppMissing pS3 =
      ([Event.getApplication pS3.applicationName],
        Except.error (TaskError.applicationDoesNotExist pS3.applicationName)) :=
  execute_application_missing_aborts envAppMissing pS3 rfl

/-- C8: an accepted submission that returns no deployment identifier yields
the empty identifier instead of failing, and the run still reaches the
completion wait, polling with the empty identifier. -/
theorem deployRevision_empty_id_continues :
    ∀ env p,
      env.createDeploymentResult = some none →
      (∀ key, deployRevision env p key = ([createDeploymentEventOf p key], Except.ok "")) ∧
      (env.getApplicationOk = true → env.getDeploymentGroupOk = true →
        env.headObjectOk = true → p.deploymentRevisionSource = revisionSourceFromS3 →
        Event.waitFor "" (setWaiterParams "" p.timeoutInMins).maxAttempts ∈
          (execute env p).1) := by
  intro env p hcd
  constructor
  · intro key
    simp [deployRevision, hcd]
  · intro h1 h2 h3 hs3
    have hnw : ¬p.deploymentRevisionSource = revisionSourceFromWorkspace := by
      rw [hs3]
      decide
    cases hw : env.waitOk <;> by_cases ho : truthy p.outputVariable <;>
      simp_all [execute, verifyResourcesExist, resolveBundleKey, deployRevision,
        waitForDeploymentCompletion, setWaiterParams]

/-- Witness for C8: the submission with an accepted-but-empty response at
concrete inputs returns the empty identifier. -/
theorem deployRevision_empty_id_continues_witness :
    deployRevision envNoId pS3 "k" = ([createDeploymentEventOf pS3 "k"], Except.ok "") :=
  (deployRevision_empty_id_continues envNoId pS3 rfl).1 "k"

/-- C1 fails on the code: with an output variable configured and a failing
completion wait, the run ends in the deployment-failure error and yet the
deployment identifier was published to the output variable, because `execute`
publishes (lines 45-48) before waiting (lines 50-54). -/
theorem setVariable_published_despite_wait_failure :
    (execute envWaitFail pS3).2 = Except.error (TaskError.deploymentFailed "app") ∧
    Event.setVariable "OUT" "d-123" ∈ (execute envWaitFail pS3).1 :=
  ⟨by decide, by decide⟩

/-- C1 as amended: when an output variable is configured, the deployment
identifier is published immediately after submission and immediately before
the completion wait, so a run whose wait fails still has the publication in
its trace, right before the wait call. -/
theorem setVariable_precedes_wait :
    ∀ env p, p.outputVariable ≠ "" →
      (execute env p).2 = Except.error (TaskError.deploymentFailed p.applicationName) →
      ∃ evs id, (execute env p).1 =
        evs ++ [Event.setVariable p.outputVariable id,
          Event.waitFor id (setWaiterParams id p.timeoutInMins).maxAttempts] := by
  intro env p hov h
  unfold execute at h ⊢
  rcases hv : verifyResourcesExist env p with ⟨evs1, r1⟩
  rw [hv] at h
  cases r1 with
  | error e =>
    dsimp only at h
    rcases verifyResourcesExist_error_shape hv with ⟨a, rfl⟩ | ⟨g, a, rfl⟩ | ⟨k, b, rfl⟩ <;>
      simp at h
  | ok u =>
    dsimp only at h ⊢
    rcases hr : resolveBundleKey env p with ⟨evs2, r2⟩
    rw [hr] at h
    cases r2 with
    | error e =>
      dsimp only at h
      rcases resolveBundleKey_error_shape hr with rfl | rfl | ⟨s, rfl⟩ <;> simp at h
    | ok bundleKey =>
      dsimp only at h ⊢
      rcases hd : deployRevision env p bundleKey with ⟨evs3, r3⟩
      rw [hd] at h
      cases r3 with
      | error e =>
        dsimp only at h
        have he := deployRevision_error_shape hd
        subst he
        simp at h
      | ok id =>
        have ht : truthy p.outputVariable = true := by simp [truthy, hov]
        dsimp only at h ⊢
        refine ⟨evs1 ++ evs2 ++ evs3, id, ?_⟩
        simp [ht, waitForDeploymentCompletion_events, List.append_assoc]

/-- Witness for the amended C1 at a concrete failing-wait run. -/
theorem setVariable_precedes_wait_witness :
    ∃ evs id, (execute envWaitFail pS3).1 =
      evs ++ [Event.setVariable pS3.outputVariable id,
        Event.waitFor id (setWaiterParams id pS3.timeoutInMins).maxAttempts] :=
  setVariable_precedes_wait envWaitFail pS3 (by decide) (by decide)

/-- C4: the revision path is chosen by `deploymentRevisionSource` alone: the
workspace source goes through `uploadBundle`, the object-store source uses the
caller-supplied key with no archive write, upload or local deletion whatever
the filesystem state, and any other source value fails with the
unknown-revision-source error. -/
theorem execute_revision_source_dichotomy :
    ∀ env p, env.getApplicationOk = true → env.getDeploymentGroupOk = true →
      (p.deploymentRevisionSource = revisionSourceFromWorkspace →
        ∃ rest, (execute env p).1 =
          [Event.getApplication p.applicationName,
            Event.getDeploymentGroup p.applicationName p.deploymentGroupName] ++
            (uploadBundle env p).1 ++ rest) ∧
      (p.deploymentRevisionSource = revisionSourceFromS3 → env.headObjectOk = true →
        (∀ f a, Event.writeZip f a ∉ (execute env p).1) ∧
        (∀ b k acl, Event.putObject b k acl ∉ (execute env p).1) ∧
        (∀ a, Event.unlinkSync a ∉ (execute env p).1) ∧
        createDeploymentEventOf p p.bundleKey ∈ (execute env p).1) ∧
      (p.deploymentRevisionSource ≠ revisionSourceFromWorkspace →
        p.deploymentRevisionSource ≠ revisionSourceFromS3 →
        execute env p =
          ([Event.getApplication p.applicationName,
            Event.getDeploymentGroup p.applicationName p.deploymentGroupName],
            Except.error (TaskError.unknownRevisionSource p.deploymentRevisionSource))) := by
  intro env p h1 h2
  refine ⟨?_, ?_, ?_⟩
  · intro hws
    have hns3 : ¬p.deploymentRevisionSource = revisionSourceFromS3 := by
      rw [hws]
      decide
    have hverify : verifyResourcesExist env p =
        ([Event.getApplication p.applicationName,
          Event.getDeploymentGroup p.applicationName p.deploymentGroupName],
          Except.ok ()) := by
      simp [verifyResourcesExist, h1, h2, hns3]
    have hres : resolveBundleKey env p = uploadBundle env p := by
      simp [resolveBundleKey, hws]
    unfold execute
    rw [hverify, hres]
    rcases hu : uploadBundle env p with ⟨evs2, r2⟩
    cases r2 with
    | error e =>
      refine ⟨[], ?_⟩
      dsimp only
      simp
    | ok key =>
      dsimp only
      rcases hdd : deployRevision env p key with ⟨evs3, r3⟩
      cases r3 with
      | error e =>
        exact ⟨evs3, rfl⟩
      | ok id =>
        refine ⟨evs3 ++ (if truthy p.outputVariable then
          [Event.setVariable p.outputVariable id] else []) ++
          (waitForDeploymentCompletion env p.applicationName id p.timeoutInMins).1, ?_⟩
        dsimp only
        simp [List.append_assoc]
  · intro hs3 h3
    have hnw : ¬p.deploymentRevisionSource = revisionSourceFromWorkspace := by
      rw [hs3]
      decide
    cases hcd : env.createDeploymentResult with
    | none =>
      simp_all [execute, verifyResourcesExist, resolveBundleKey, deployRevision,
        createDeploymentEventOf]
    | some r =>
      cases hw : env.waitOk <;> by_cases ho : truthy p.outputVariable <;>
        simp_all [execute, verifyResourcesExist, resolveBundleKey, deployRevision,
          waitForDeploymentCompletion, setWaiterParams, createDeploymentEventOf]
  · intro hnw hns
    simp [execute, verifyResourcesExist, resolveBundleKey, h1, h2, hnw, hns]

/-- Witness for C4: the happy object-store run contains its submission call. -/
theorem execute_revision_source_dichotomy_witness :
    createDeploymentEventOf pS3 pS3.bundleKey ∈ (execute envHappy pS3).1 :=
  ((execute_revision_source_dichotomy envHappy pS3 rfl rfl).2.1 rfl rfl).2.2.2

/-- C7: every wait call of a run is passed `round(timeoutMinutes * 60 / 15)`
maximum attempts, and a five-minute timeout yields exactly 20 attempts. -/
theorem waiter_maxAttempts_formula :
    (∀ env p id n, Event.waitFor id n ∈ (execute env p).1 →
      n = round ((p.timeoutInMins * 60) / 15)) ∧
    (setWaiterParams "d" 5).maxAttempts = 20 := by
  constructor
  · intro env p id n h
    unfold execute at h
    have hmemv : Event.waitFor id n ∉ (verifyResourcesExist env p).1 := by
      intro hm
      rcases mem_verifyResourcesExist hm with ⟨a, ha⟩ | ⟨a, g, ha⟩ | ⟨b, k, ha⟩ <;>
        simp at ha
    have hmemr : Event.waitFor id n ∉ (resolveBundleKey env p).1 := by
      intro hm
      rcases mem_resolveBundleKey hm with ⟨f, a, ha⟩ | ⟨b, k, acl, ha⟩ | ⟨a, ha⟩ <;>
        simp at ha
    rcases hv : verifyResourcesExist env p with ⟨evs1, r1⟩
    rw [hv] at h
    have hv1 : evs1 = (verifyResourcesExist env p).1 := by rw [hv]
    cases r1 with
    | error e =>
      dsimp only at h
      exact absurd (hv1 ▸ h) hmemv
    | ok u =>
      dsimp only at h
      rcases hr : resolveBundleKey env p with ⟨evs2, r2⟩
      rw [hr] at h
      have hr1 : evs2 = (resolveBundleKey env p).1 := by rw [hr]
      cases r2 with
      | error e =>
        dsimp only at h
        rcases List.mem_append.mp h with h' | h'
        · exact absurd (hv1 ▸ h') hmemv
        · exact absurd (hr1 ▸ h') hmemr
      | ok bundleKey =>
        dsimp only at h
        rcases hdd : deployRevision env p bundleKey with ⟨evs3, r3⟩
        rw [hdd] at h
        have hevs3 : evs3 = [createDeploymentEventOf p bundleKey] := by
          have h3 := deployRevision_events env p bundleKey
          rw [hdd] at h3
          exact h3
        cases r3 with
        | error e =>
          dsimp only at h
          subst hevs3
          rcases List.mem_append.mp h with h' | h'
          · rcases List.mem_append.mp h' with h'' | h''
            · exact absurd (hv1 ▸ h'') hmemv
            · exact absurd (hr1 ▸ h'') hmemr
          · simp [createDeploymentEventOf] at h'
        | ok id' =>
          dsimp only at h
          subst hevs3
          rw [waitForDeploymentCompletion_events] at h
          rcases List.mem_append.mp h with h' | h'
          · rcases List.mem_append.mp h' with h'' | h''
            · rcases List.mem_append.mp h'' with h3 | h3
              · rcases List.mem_append.mp h3 with h4 | h4
                · exact absurd (hv1 ▸ h4) hmemv
                · exact absurd (hr1 ▸ h4) hmemr
              · simp [createDeploymentEventOf] at h3
            · cases ho : truthy p.outputVariable <;> simp [ho] at h''
          · simp [setWaiterParams] at h'
            exact h'.2
  · norm_num [setWaiterParams, round_eq]

/-- Witness for C7: the happy run's wait call carries 20 attempts for the
five-minute timeout. -/
theorem waiter_maxAttempts_formula_witness :
    (20 : ℤ) = round ((pS3.timeoutInMins * 60) / 15) := by
  have h20 : (setWaiterParams "d-123" pS3.timeoutInMins).maxAttempts = 20 := by
    norm_num [setWaiterParams, pS3, round_eq]
  refine waiter_maxAttempts_formula.1 envHappy pS3 "d-123" 20 ?_
  have htrace : (execute envHappy pS3).1 =
      [Event.getApplication "app", Event.getDeploymentGroup "app" "grp",
        Event.headObject "bkt" "bundle.tar", createDeploymentEventOf pS3 "bundle.tar",
        Event.setVariable "OUT" "d-123",
        Event.waitFor "d-123" (setWaiterParams "d-123" pS3.timeoutInMins).maxAttempts] := rfl
  rw [htrace, h20]
  simp

end CodeDeployDeployApplication
